import Mathlib

/-!
# Verification of the MTS schematic codec, validator and generator

Shallow embedding of `mtschem_tools` (mts_parser.py, validators.py,
generators.py).  A file's content is a `List Byte` (`Byte := Fin 256`);
sequential `f.read(n)` calls on an open file are modelled by `readAt`,
which returns the (possibly shorter) slice available from a position.
Python exceptions raised by construction APIs become `Option`; the zlib
compressor/decompressor pair is an external collaborator and is passed in
as an explicit parameter wherever the code calls it.
-/

set_option maxRecDepth 4000

namespace MTS

/-- A byte as stored in a Python `bytes` object: an integer in `[0, 256)`. -/
abbrev Byte := Fin 256

/-- `readAt b pos n` models `f.seek(pos); f.read(n)` on a file whose content
is `b`: the up-to-`n` bytes available starting at `pos` (fewer at EOF). -/
def readAt (b : List Byte) (pos n : Nat) : List Byte :=
  (b.drop pos).take n

/-- Big-endian decoding of two bytes, `struct.unpack` with format `>H`. -/
def be16 (hi lo : Byte) : Nat := hi.val * 256 + lo.val

/-- The 4-byte signature literal `b'MTSM'`. -/
def mtsmSig : List Byte := [77, 84, 83, 77]

/-- Result of `MTSParser.parse_header` (mts_parser.py lines 8–37). -/
structure Header where
  signature : List Byte
  signature_valid : Bool
  version : Nat
  width : Nat
  height : Nat
  length : Nat
  volume : Nat
  file_size : Nat
  deriving Repr, DecidableEq

/-- `MTSParser.parse_header`: reads the 4-byte signature, a big-endian
16-bit version (0 if fewer than 2 bytes remain) and three big-endian
16-bit dimensions (all 0 if fewer than 6 bytes remain); `file_size` is
`f.tell()` after these reads. -/
def parse_header (b : List Byte) : Header :=
  let signature := readAt b 0 4
  let version :=
    match readAt b 4 2 with
    | [hi, lo] => be16 hi lo
    | _ => 0
  let dims :=
    match readAt b 6 6 with
    | [w1, w0, h1, h0, l1, l0] => (be16 w1 w0, be16 h1 h0, be16 l1 l0)
    | _ => (0, 0, 0)
  { signature := signature
    signature_valid := signature = mtsmSig
    version := version
    width := dims.1
    height := dims.2.1
    length := dims.2.2
    volume := dims.1 * dims.2.1 * dims.2.2
    file_size := min b.length 12 }

/-- `MTSParser.parse_yprobs`: seeks to offset 12 and reads `height` bytes;
returns the y-probability bytes (or `[]` on a short read) together with
`f.tell()`. -/
def parse_yprobs (b : List Byte) : List Byte × Nat :=
  let header := parse_header b
  let yprobs_data := readAt b 12 header.height
  let yprobs := if yprobs_data.length = header.height then yprobs_data else []
  (yprobs, 12 + yprobs_data.length)

/-! ## UTF-8 decoding

Python's `bytes.decode('utf-8', errors=...)` is an external collaborator
(the spec calls it "a UTF-8 (lossy-tolerant) decoder").  We embed CPython's
decoder: a maximal ill-formed unit (an invalid start byte, or a start byte
together with the valid continuation bytes consumed before the failure)
produces `errOut` — `[]` under `errors='ignore'`, `[U+FFFD]` under
`errors='replace'` — and decoding resumes at the next byte. -/

/-- A UTF-8 continuation byte: `0x80–0xBF`. -/
def utf8Cont (y : Byte) : Bool := decide (128 ≤ y.val ∧ y.val ≤ 191)

/-- Valid second byte of a 3-byte sequence whose start byte is `x`
(`0xE0` needs `0xA0–0xBF`, `0xED` needs `0x80–0x9F`, else any continuation). -/
def utf8Second3 (x y : Byte) : Bool :=
  if x.val = 224 then decide (160 ≤ y.val ∧ y.val ≤ 191)
  else if x.val = 237 then decide (128 ≤ y.val ∧ y.val ≤ 159)
  else utf8Cont y

/-- Valid second byte of a 4-byte sequence whose start byte is `x`
(`0xF0` needs `0x90–0xBF`, `0xF4` needs `0x80–0x8F`, else any continuation). -/
def utf8Second4 (x y : Byte) : Bool :=
  if x.val = 240 then decide (144 ≤ y.val ∧ y.val ≤ 191)
  else if x.val = 244 then decide (128 ≤ y.val ∧ y.val ≤ 143)
  else utf8Cont y

/-- CPython's UTF-8 decoder with error output `errOut` per ill-formed
unit, written with an explicit fuel argument so the recursion is
structural (every recursive call consumes at least one byte, so any fuel
of at least the list's length gives the decoder's value). -/
def decodeUtf8Fuel (errOut : List Char) : Nat → List Byte → List Char
  | _, [] => []
  | 0, _ :: _ => []
  | Nat.succ f, x :: rest =>
    if x.val < 128 then
      Char.ofNat x.val :: decodeUtf8Fuel errOut f rest
    else if 194 ≤ x.val ∧ x.val ≤ 223 then
      match rest with
      | y :: r2 =>
        if utf8Cont y then
          Char.ofNat ((x.val - 192) * 64 + (y.val - 128)) :: decodeUtf8Fuel errOut f r2
        else errOut ++ decodeUtf8Fuel errOut f (y :: r2)
      | [] => errOut
    else if 224 ≤ x.val ∧ x.val ≤ 239 then
      match rest with
      | y :: r2 =>
        if utf8Second3 x y then
          match r2 with
          | z :: r3 =>
            if utf8Cont z then
              Char.ofNat ((x.val - 224) * 4096 + (y.val - 128) * 64 + (z.val - 128)) ::
                decodeUtf8Fuel errOut f r3
            else errOut ++ decodeUtf8Fuel errOut f (z :: r3)
          | [] => errOut
        else errOut ++ decodeUtf8Fuel errOut f (y :: r2)
      | [] => errOut
    else if 240 ≤ x.val ∧ x.val ≤ 244 then
      match rest with
      | y :: r2 =>
        if utf8Second4 x y then
          match r2 with
          | z :: r3 =>
            if utf8Cont z then
              match r3 with
              | w :: r4 =>
                if utf8Cont w then
                  Char.ofNat ((x.val - 240) * 262144 + (y.val - 128) * 4096 +
                      (z.val - 128) * 64 + (w.val - 128)) :: decodeUtf8Fuel errOut f r4
                else errOut ++ decodeUtf8Fuel errOut f (w :: r4)
              | [] => errOut
            else errOut ++ decodeUtf8Fuel errOut f (z :: r3)
          | [] => errOut
        else errOut ++ decodeUtf8Fuel errOut f (y :: r2)
      | [] => errOut
    else
      errOut ++ decodeUtf8Fuel errOut f rest

/-- CPython's UTF-8 decoder: run the fuelled decoder with enough fuel. -/
def decodeUtf8 (errOut : List Char) (bs : List Byte) : List Char :=
  decodeUtf8Fuel errOut bs.length bs

/-- `name_bytes.decode('utf-8', errors='ignore')`: ill-formed units are dropped. -/
def pyDecodeIgnore (bs : List Byte) : String := String.mk (decodeUtf8 [] bs)

/-- `name_bytes.decode('utf-8', errors='replace')`: each ill-formed unit
becomes `U+FFFD`. -/
def pyDecodeReplace (bs : List Byte) : String :=
  String.mk (decodeUtf8 [Char.ofNat 65533] bs)

/-! ## Node list (palette) parsing -/

/-- The per-entry loop of `MTSParser.parse_nodelist` (mts_parser.py
lines 71–84): for each remaining entry, read a 2-byte big-endian name
length, then that many name bytes; a short read breaks out of the loop,
keeping the entries already parsed.  Returns the entries parsed from this
iteration on, together with `f.tell()`. -/
def parseNodes (b : List Byte) : Nat → Nat → List String × Nat
  | 0, pos => ([], pos)
  | Nat.succ n, pos =>
    match readAt b pos 2 with
    | [hi, lo] =>
      let namelen := be16 hi lo
      let name_bytes := readAt b (pos + 2) namelen
      if name_bytes.length = namelen then
        let r := parseNodes b n (pos + 2 + namelen)
        (pyDecodeIgnore name_bytes :: r.1, r.2)
      else ([], pos + 2 + name_bytes.length)
    | bs => ([], pos + bs.length)

/-- `MTSParser.parse_nodelist`: seeks to `12 + height`, reads a 2-byte
big-endian node count (short read: no entries), then runs the entry loop. -/
def parse_nodelist (b : List Byte) : List String × Nat :=
  let header := parse_header b
  let p0 := 12 + header.height
  match readAt b p0 2 with
  | [hi, lo] => parseNodes b (be16 hi lo) (p0 + 2)
  | bs => ([], p0 + bs.length)

/-! ## Metadata and the compressed-data section -/

/-- The `data_section` mapping of `MTSParser.get_metadata`.  Python's
unbounded integers make `compressed_size = file_size - npos` a possibly
negative value, so it is an `Int`. -/
structure DataSection where
  offset : Nat
  compressed_size : Int
  uncompressed_size_estimate : Nat
  deriving Repr, DecidableEq

/-- The mapping returned by `MTSParser.get_metadata` (mts_parser.py
lines 88–116), flattened into a record. -/
structure Metadata where
  header : Header
  yprobs_values : List Byte
  yprobs_count : Nat
  yprobs_expected : Nat
  nodes : List String
  nodes_count : Nat
  has_air : Bool
  data_section : DataSection
  deriving Repr, DecidableEq

/-- `MTSParser.get_metadata`. -/
def get_metadata (b : List Byte) : Metadata :=
  let header := parse_header b
  let yp := parse_yprobs b
  let nl := parse_nodelist b
  { header := header
    yprobs_values := yp.1
    yprobs_count := yp.1.length
    yprobs_expected := header.height
    nodes := nl.1
    nodes_count := nl.1.length
    has_air := if nl.1 = [] then false else decide ("air" ∈ nl.1)
    data_section :=
      { offset := nl.2
        compressed_size := (b.length : Int) - (nl.2 : Int)
        uncompressed_size_estimate := header.volume * 4 } }

/-- `MTSParser.extract_compressed_data`: seek to the data offset and read
to end-of-file. -/
def extract_compressed_data (b : List Byte) : List Byte :=
  b.drop (get_metadata b).data_section.offset

/-! ## Validator (validators.py) -/

/-- Stable category codes for the violation strings `MTSValidator`
appends; one constructor per `errors.append(...)` site. -/
inductive Violation where
  | fileNotExist
  | fileTooSmall
  | badExtension
  | badSignature
  | cannotReadVersion
  | unsupportedVersion
  | cannotReadDimensions
  | invalidDimensions
  | dimensionsTooLarge
  | incompleteYprobs
  | cannotReadNodeCount
  | compressedTooLarge
  | fileTruncated
  deriving Repr, DecidableEq

/-- The `metadata` dict of `MTSValidator.validate_file`; Python's
possibly-absent keys become `Option` fields. -/
structure VMeta where
  version : Option Nat := none
  dimensions : Option (Nat × Nat × Nat) := none
  volume : Option Nat := none
  yprobs_length : Option Nat := none
  node_count : Option Nat := none
  compressed_data_size : Option Nat := none
  deriving Repr, DecidableEq

/-- An existing file on disk: its path and its content. -/
structure MTSFile where
  path : String
  content : List Byte
  deriving Repr, DecidableEq

/-- `filepath.lower().endswith('.mts')`. -/
def endsWithMts (p : String) : Bool :=
  List.isSuffixOf ['.', 'm', 't', 's'] (p.data.map Char.toLower)

/-- `MTSValidator.validate_file` (validators.py lines 8–95); `none` models
a non-existent file.  Reads are sequential, so after the fixed 12 header
bytes the position is `12 + (y-probability bytes actually read)`. -/
def validate_file (file : Option MTSFile) : Bool × List Violation × VMeta :=
  match file with
  | none => (false, [.fileNotExist], {})
  | some f =>
    let b := f.content
    if b.length < 20 then
      (false, [.fileTooSmall], {})
    else
      let e1 : List Violation := if endsWithMts f.path then [] else [.badExtension]
      let e2 : List Violation := if readAt b 0 4 = mtsmSig then [] else [.badSignature]
      let vRes :=
        match readAt b 4 2 with
        | [hi, lo] =>
          let v := be16 hi lo
          ((if v = 3 ∨ v = 4 ∨ v = 5 then ([] : List Violation)
            else [.unsupportedVersion]), some v)
        | _ => ([.cannotReadVersion], none)
      let e3 := vRes.1
      let dRes :=
        match readAt b 6 6 with
        | [w1, w0, h1, h0, l1, l0] =>
          let w := be16 w1 w0
          let h := be16 h1 h0
          let l := be16 l1 l0
          ((if w = 0 ∨ h = 0 ∨ l = 0 then ([.invalidDimensions] : List Violation)
            else []) ++
           (if 65535 < w ∨ 65535 < h ∨ 65535 < l then ([.dimensionsTooLarge] : List Violation)
            else []),
           some (w, h, l))
        | _ => ([.cannotReadDimensions], none)
      let e4 := dRes.1
      let yRes :=
        match dRes.2 with
        | some d =>
          let ydata := readAt b 12 d.2.1
          if ydata.length = d.2.1 then (([] : List Violation), some ydata.length, 12 + ydata.length)
          else (([.incompleteYprobs] : List Violation), none, 12 + ydata.length)
        | none => ([], none, min b.length 12)
      let e5 := yRes.1
      let ncBytes := readAt b yRes.2.2 2
      let nRes :=
        match ncBytes with
        | [hi, lo] => (([] : List Violation), some (be16 hi lo))
        | _ => (([.cannotReadNodeCount] : List Violation), none)
      let e6 := nRes.1
      let current_pos := yRes.2.2 + ncBytes.length
      let compressed_size := b.length - current_pos
      let mVolume := dRes.2.map (fun d => d.1 * d.2.1 * d.2.2)
      let e7 : List Violation :=
        match mVolume with
        | some vol => if vol * 4 * 2 < compressed_size then [.compressedTooLarge] else []
        | none => []
      let errors := e1 ++ e2 ++ e3 ++ e4 ++ e5 ++ e6 ++ e7
      let e8 : List Violation :=
        match dRes.2 with
        | some d =>
          if errors = [] ∧ b.length < 12 + d.2.1 + 2 then [.fileTruncated] else []
        | none => []
      let errors' := errors ++ e8
      (errors' = [], errors',
       { version := vRes.2
         dimensions := dRes.2
         volume := mVolume
         yprobs_length := yRes.2.1
         node_count := nRes.2
         compressed_data_size := some compressed_size })

/-! ### The validator's checks as independent functions

`validate_file` reads its input sequentially; once the fatal minimum-size
check has passed, every remaining check depends only on the file's bytes
(and the extension check only on its path).  The following definitions
express each numbered check of the spec in isolation; the decomposition
lemma below proves that `validate_file` is their concatenation in order. -/

/-- Check 2: extension sanity (validators.py line 24). -/
def checkExtension (p : String) : List Violation :=
  if endsWithMts p then [] else [.badExtension]

/-- Check 3: signature (validators.py line 31). -/
def checkSignature (b : List Byte) : List Violation :=
  if readAt b 0 4 = mtsmSig then [] else [.badSignature]

/-- The version field as the validator decodes it (validators.py line 39). -/
def decodedVersion (b : List Byte) : Option Nat :=
  match readAt b 4 2 with
  | [hi, lo] => some (be16 hi lo)
  | _ => none

/-- Check 4: version supported (validators.py lines 36–42). -/
def checkVersion (b : List Byte) : List Violation :=
  match decodedVersion b with
  | some v => if v = 3 ∨ v = 4 ∨ v = 5 then [] else [.unsupportedVersion]
  | none => [.cannotReadVersion]

/-- The dimensions as the validator decodes them (validators.py line 49). -/
def decodedDims (b : List Byte) : Option (Nat × Nat × Nat) :=
  match readAt b 6 6 with
  | [w1, w0, h1, h0, l1, l0] => some (be16 w1 w0, be16 h1 h0, be16 l1 l0)
  | _ => none

/-- Check 5: dimension sanity (validators.py lines 46–57). -/
def checkDimensions (b : List Byte) : List Violation :=
  match decodedDims b with
  | some d =>
    (if d.1 = 0 ∨ d.2.1 = 0 ∨ d.2.2 = 0 then ([.invalidDimensions] : List Violation)
     else []) ++
    (if 65535 < d.1 ∨ 65535 < d.2.1 ∨ 65535 < d.2.2 then ([.dimensionsTooLarge] : List Violation)
     else [])
  | none => [.cannotReadDimensions]

/-- Check 6: y-probability completeness (validators.py lines 60–65). -/
def checkYprobs (b : List Byte) : List Violation :=
  match decodedDims b with
  | some d => if (readAt b 12 d.2.1).length = d.2.1 then [] else [.incompleteYprobs]
  | none => []

/-- The stream position after the y-probability read. -/
def posAfterY (b : List Byte) : Nat :=
  match decodedDims b with
  | some d => 12 + (readAt b 12 d.2.1).length
  | none => min b.length 12

/-- Check 7: node-count readability (validators.py lines 68–73). -/
def checkNodeCount (b : List Byte) : List Violation :=
  match readAt b (posAfterY b) 2 with
  | [_, _] => []
  | _ => [.cannotReadNodeCount]

/-- The node count as the validator decodes it (validators.py line 72). -/
def decodedNodeCount (b : List Byte) : Option Nat :=
  match readAt b (posAfterY b) 2 with
  | [hi, lo] => some (be16 hi lo)
  | _ => none

/-- `file_size - current_pos` (validators.py lines 76–78). -/
def compressedSize (b : List Byte) : Nat :=
  b.length - (posAfterY b + (readAt b (posAfterY b) 2).length)

/-- Check 8: compressed-size sanity (validators.py lines 81–84). -/
def checkCompressedSize (b : List Byte) : List Violation :=
  match decodedDims b with
  | some d =>
    if d.1 * d.2.1 * d.2.2 * 4 * 2 < compressedSize b then [.compressedTooLarge] else []
  | none => []

/-- The seven data checks that run after the fatal prefix, in source order. -/
def quickChecks (p : String) (b : List Byte) : List Violation :=
  checkExtension p ++ checkSignature b ++ checkVersion b ++ checkDimensions b ++
    checkYprobs b ++ checkNodeCount b ++ checkCompressedSize b

/-- Check 9: truncation (validators.py lines 90–93); guarded on `prev`, the
violations accumulated so far, being empty. -/
def checkTruncation (b : List Byte) (prev : List Violation) : List Violation :=
  match decodedDims b with
  | some d => if prev = [] ∧ b.length < 12 + d.2.1 + 2 then [.fileTruncated] else []
  | none => []

/-- The `yprobs_length` metadata entry (validators.py line 65). -/
def metaYprobsLen (b : List Byte) : Option Nat :=
  match decodedDims b with
  | some d => if (readAt b 12 d.2.1).length = d.2.1 then some (readAt b 12 d.2.1).length else none
  | none => none

/-- Result messages of `MTSValidator.check_corruption`, as category codes. -/
inductive HealthMsg where
  | invalid
  | cannotDecompress
  | sizeMismatch
  | healthyFull
  | healthyQuick
  deriving Repr, DecidableEq

/-- `MTSValidator.check_corruption` (validators.py lines 97–125).  The
zlib decompressor (`MTSParser.decompress_bulk_data`, which returns `None`
on a `zlib.error`) is passed in as `decompress`. -/
def check_corruption (decompress : List Byte → Option (List Byte))
    (file : Option MTSFile) (quick : Bool) : Bool × HealthMsg :=
  let v := validate_file file
  if v.1 = false then (false, .invalid)
  else if quick then (true, .healthyQuick)
  else
    match file with
    | none => (false, .invalid)
    | some f =>
      let compressed := extract_compressed_data f.content
      match decompress compressed with
      | none => (false, .cannotDecompress)
      | some d =>
        let expected := (get_metadata f.content).header.volume * 4
        if d.length ≠ expected then (false, .sizeMismatch)
        else (true, .healthyFull)

/-! ## Generators (generators.py) -/

/-- The low byte of a natural number. -/
def b8 (n : Nat) : Byte := ⟨n % 256, Nat.mod_lt n (by omega)⟩

/-- `struct.pack('>H', n)` for `n < 65536`: high byte then low byte. -/
def enc16 (n : Nat) : List Byte := [b8 (n / 256), b8 n]

/-- The UTF-8 bytes of `"air"`. -/
def airBytes : List Byte := [97, 105, 114]

/-- The uncompressed bulk payload of an all-air document: `2·volume` node-id
bytes, `volume` prob/force bytes and `volume` param2 bytes, all zero. -/
def emptyBulk (volume : Nat) : List Byte :=
  List.replicate (2 * volume) 0 ++ List.replicate volume 0 ++ List.replicate volume 0

/-- `MTSGenerator.create_empty_schematic` (generators.py lines 12–60).
`compress` is the zlib compressor (`zlib.compress(..., level=9)`); raising
`ValueError` on out-of-range dimensions (or `struct.error` on an
unpackable version) is modelled by `none`. -/
def create_empty_schematic (compress : List Byte → List Byte)
    (width height length : Nat) (version : Nat := 4) : Option (List Byte) :=
  if width = 0 ∨ height = 0 ∨ length = 0 then none
  else if 65535 < width ∨ 65535 < height ∨ 65535 < length then none
  else if 65536 ≤ version then none
  else
    let volume := width * height * length
    some (mtsmSig ++ enc16 version ++
      enc16 width ++ enc16 height ++ enc16 length ++
      List.replicate height (127 : Byte) ++
      enc16 1 ++ enc16 3 ++ airBytes ++
      compress (emptyBulk volume))

/-- The palette section bytes for a list of (already UTF-8 encoded) names:
each name length-prefixed, concatenated. -/
def palBytes (entries : List (List Byte)) : List Byte :=
  List.flatten (entries.map (fun nb => enc16 nb.length ++ nb))

/-- The `template` dict of `MTSGenerator.create_from_template`, with its
`.get` defaults.  Palette names are represented by their UTF-8 bytes
(Python's `node.encode('utf-8')`); `data` entries are the spec's
`(node_index, prob_force, param2)` triples, of which only emptiness is
inspected by the code. -/
structure Template where
  dimensions : Nat × Nat × Nat := (1, 1, 1)
  nodes : List (List Byte) := [[97, 105, 114]]
  data : List (Nat × Nat × Nat) := []
  deriving Repr, DecidableEq

/-- `MTSGenerator.create_from_template` (generators.py lines 76–126).
When `data` is falsy the bulk payload is the all-air planes; otherwise the
population is an unimplemented placeholder (`pass`) and the bulk payload
stays empty.  `none` models a `struct.error` from an unpackable dimension,
node count or name length. -/
def create_from_template (compress : List Byte → List Byte)
    (t : Template) : Option (List Byte) :=
  let width := t.dimensions.1
  let height := t.dimensions.2.1
  let length := t.dimensions.2.2
  let volume := width * height * length
  if 65535 < width ∨ 65535 < height ∨ 65535 < length then none
  else if 65535 < t.nodes.length then none
  else if t.nodes.any (fun nb => 65535 < nb.length) then none
  else
    let nodesBytes := palBytes t.nodes
    let bulk : List Byte :=
      if t.data = [] then
        List.replicate (2 * volume) 0 ++ List.replicate volume 0 ++
          List.replicate volume 0
      else []
    some (mtsmSig ++ enc16 4 ++
      enc16 width ++ enc16 height ++ enc16 length ++
      List.replicate height (127 : Byte) ++
      enc16 t.nodes.length ++ nodesBytes ++
      compress bulk)

/-- Consecutive big-endian 16-bit values of a byte list (a trailing odd
byte is ignored). -/
def bePairs : List Byte → List Nat
  | hi :: lo :: rest => be16 hi lo :: bePairs rest
  | _ => []

/-- Modelled from the spec: the node-index plane of an uncompressed bulk
payload (spec §4.4: "`node_index` plane as `volume` big-endian unsigned
16-bit values (2×volume bytes)" at the start of the payload).  No function
under `src/` materializes the voxel planes; only the spec defines this
decoding. -/
def nodeIndices (payload : List Byte) (volume : Nat) : List Nat :=
  bePairs (payload.take (2 * volume))

/-- The common shape of both generators' output: header, y-probabilities,
node count, palette, compressed payload. -/
def genDoc (v w h l : Nat) (entries : List (List Byte)) (cp : List Byte) : List Byte :=
  mtsmSig ++ enc16 v ++ enc16 w ++ enc16 h ++ enc16 l ++
    List.replicate h (127 : Byte) ++ enc16 entries.length ++ palBytes entries ++ cp

/-! # Theorems

First general lemmas about the byte primitives and the parsers, then one
theorem (plus witness or counterexample) per claim. -/

/-! ## Byte primitives -/

theorem be16_le (hi lo : Byte) : be16 hi lo ≤ 65535 := by
  have h1 := hi.isLt
  have h2 := lo.isLt
  simp only [be16]
  omega

theorem be16_enc16 {n : Nat} (h : n < 65536) : be16 (b8 (n / 256)) (b8 n) = n := by
  simp only [be16, b8]
  omega

theorem length_enc16 (n : Nat) : (enc16 n).length = 2 := rfl

theorem drop_append_step {b xs rest : List Byte} {pos : Nat}
    (h : b.drop pos = xs ++ rest) : b.drop (pos + xs.length) = rest := by
  rw [← List.drop_drop, h, List.drop_left]

theorem readAt_of_drop {b t : List Byte} {pos : Nat} (h : b.drop pos = t) (n : Nat) :
    readAt b pos n = t.take n := by
  rw [readAt, h]

theorem length_eq_two {α : Type} {l : List α} (h : l.length = 2) :
    ∃ a b, l = [a, b] := by
  rcases l with _ | ⟨a, _ | ⟨b, _ | ⟨c, t⟩⟩⟩ <;> simp at h
  exact ⟨a, b, rfl⟩

theorem length_eq_six {α : Type} {l : List α} (h : l.length = 6) :
    ∃ a b c d e f, l = [a, b, c, d, e, f] := by
  rcases l with _ | ⟨a, _ | ⟨b, _ | ⟨c, _ | ⟨d, _ | ⟨e, _ | ⟨f, _ | ⟨g, t⟩⟩⟩⟩⟩⟩⟩ <;> simp at h
  exact ⟨a, b, c, d, e, f, rfl⟩

/-! ## Parsing a generated document -/

theorem parse_header_genDoc {v w h l : Nat} (hv : v < 65536) (hw : w < 65536)
    (hh : h < 65536) (hl : l < 65536) (entries : List (List Byte)) (cp : List Byte) :
    parse_header (genDoc v w h l entries cp) =
      { signature := mtsmSig, signature_valid := true, version := v, width := w,
        height := h, length := l, volume := w * h * l, file_size := 12 } := by
  have h1 : parse_header (genDoc v w h l entries cp) =
      { signature := mtsmSig, signature_valid := decide (mtsmSig = mtsmSig),
        version := be16 (b8 (v / 256)) (b8 v),
        width := be16 (b8 (w / 256)) (b8 w),
        height := be16 (b8 (h / 256)) (b8 h),
        length := be16 (b8 (l / 256)) (b8 l),
        volume := be16 (b8 (w / 256)) (b8 w) * be16 (b8 (h / 256)) (b8 h) *
          be16 (b8 (l / 256)) (b8 l),
        file_size := min (genDoc v w h l entries cp).length 12 } := rfl
  rw [h1, be16_enc16 hv, be16_enc16 hw, be16_enc16 hh, be16_enc16 hl]
  have h2 : min (genDoc v w h l entries cp).length 12 = 12 := by
    have : 12 ≤ (genDoc v w h l entries cp).length := by
      simp [genDoc, mtsmSig, enc16]
    omega
  rw [h2]
  simp

theorem palBytes_cons (nb : List Byte) (rest : List (List Byte)) :
    palBytes (nb :: rest) = enc16 nb.length ++ (nb ++ palBytes rest) := by
  simp [palBytes, List.append_assoc]

theorem length_palBytes_cons (nb : List Byte) (rest : List (List Byte)) :
    (palBytes (nb :: rest)).length = 2 + nb.length + (palBytes rest).length := by
  simp [palBytes_cons, length_enc16]
  omega

/-- Parsing a well-formed encoded palette: if from position `pos` the
buffer holds the length-prefixed encodings of `entries` (then anything),
the entry loop decodes exactly the lossily-decoded names and stops right
after the last palette byte. -/
theorem parseNodes_encoded (entries : List (List Byte)) :
    ∀ (d : List Byte) (pos : Nat) (tail : List Byte),
      d.drop pos = palBytes entries ++ tail →
      (∀ nb ∈ entries, nb.length < 65536) →
      parseNodes d entries.length pos =
        (entries.map pyDecodeIgnore, pos + (palBytes entries).length) := by
  induction entries with
  | nil =>
    intro d pos tail _ _
    simp [parseNodes, palBytes]
  | cons nb rest ih =>
    intro d pos tail hd hlen
    have hnb : nb.length < 65536 := hlen nb (by simp)
    have hd1 : d.drop pos = enc16 nb.length ++ (nb ++ (palBytes rest ++ tail)) := by
      rw [hd, palBytes_cons]
      simp [List.append_assoc]
    have hr2 : readAt d pos 2 = [b8 (nb.length / 256), b8 nb.length] := by
      rw [readAt_of_drop hd1]
      rfl
    have hd2 : d.drop (pos + 2) = nb ++ (palBytes rest ++ tail) := by
      have h2 := drop_append_step hd1
      simpa [length_enc16] using h2
    have hname : readAt d (pos + 2) nb.length = nb := by
      rw [readAt_of_drop hd2, List.take_left]
    have hd3 : d.drop (pos + 2 + nb.length) = palBytes rest ++ tail := drop_append_step hd2
    have hrec := ih d (pos + 2 + nb.length) tail hd3 (fun x hx => hlen x (by simp [hx]))
    simp only [List.length_cons]
    rw [parseNodes, hr2]
    simp only [be16_enc16 hnb, hname]
    simp [hrec, length_palBytes_cons, Prod.ext_iff]
    try omega

/-- `drop 12` of a generated document. -/
theorem drop12_genDoc (v w h l : Nat) (entries : List (List Byte)) (cp : List Byte) :
    (genDoc v w h l entries cp).drop 12 =
      List.replicate h (127 : Byte) ++ (enc16 entries.length ++ (palBytes entries ++ cp)) := by
  have : genDoc v w h l entries cp =
      (mtsmSig ++ enc16 v ++ enc16 w ++ enc16 h ++ enc16 l) ++
        (List.replicate h (127 : Byte) ++ (enc16 entries.length ++ (palBytes entries ++ cp))) := by
    simp [genDoc, List.append_assoc]
  rw [this]
  exact List.drop_left' rfl

theorem parse_yprobs_genDoc {v w h l : Nat} (hv : v < 65536) (hw : w < 65536)
    (hh : h < 65536) (hl : l < 65536) (entries : List (List Byte)) (cp : List Byte) :
    parse_yprobs (genDoc v w h l entries cp) = (List.replicate h (127 : Byte), 12 + h) := by
  simp only [parse_yprobs, parse_header_genDoc hv hw hh hl entries cp]
  rw [readAt_of_drop (drop12_genDoc v w h l entries cp)]
  rw [List.take_left' (List.length_replicate h 127)]
  simp

theorem drop_12h_genDoc (v w h l : Nat) (entries : List (List Byte)) (cp : List Byte) :
    (genDoc v w h l entries cp).drop (12 + h) =
      enc16 entries.length ++ (palBytes entries ++ cp) := by
  have h2 := drop_append_step (drop12_genDoc v w h l entries cp)
  simpa [List.length_replicate] using h2

theorem parse_nodelist_genDoc {v w h l : Nat} (hv : v < 65536) (hw : w < 65536)
    (hh : h < 65536) (hl : l < 65536) {entries : List (List Byte)} (cp : List Byte)
    (hcount : entries.length < 65536) (hent : ∀ nb ∈ entries, nb.length < 65536) :
    parse_nodelist (genDoc v w h l entries cp) =
      (entries.map pyDecodeIgnore, 12 + h + 2 + (palBytes entries).length) := by
  simp only [parse_nodelist, parse_header_genDoc hv hw hh hl entries cp]
  have hr : readAt (genDoc v w h l entries cp) (12 + h) 2 =
      [b8 (entries.length / 256), b8 entries.length] := by
    rw [readAt_of_drop (drop_12h_genDoc v w h l entries cp)]
    rfl
  rw [hr]
  have hd2 : (genDoc v w h l entries cp).drop (12 + h + 2) = palBytes entries ++ cp := by
    have h2 := drop_append_step (drop_12h_genDoc v w h l entries cp)
    simpa [length_enc16] using h2
  simp only [be16_enc16 hcount]
  exact parseNodes_encoded entries _ (12 + h + 2) cp hd2 hent

/-- The data-section offset computed by `get_metadata` on a generated
document, and the compressed bytes found there. -/
theorem extract_genDoc {v w h l : Nat} (hv : v < 65536) (hw : w < 65536)
    (hh : h < 65536) (hl : l < 65536) {entries : List (List Byte)} (cp : List Byte)
    (hcount : entries.length < 65536) (hent : ∀ nb ∈ entries, nb.length < 65536) :
    extract_compressed_data (genDoc v w h l entries cp) = cp := by
  simp only [extract_compressed_data, get_metadata,
    parse_nodelist_genDoc hv hw hh hl cp hcount hent]
  have hd2 : (genDoc v w h l entries cp).drop (12 + h + 2) = palBytes entries ++ cp := by
    have h2 := drop_append_step (drop_12h_genDoc v w h l entries cp)
    simpa [length_enc16] using h2
  exact drop_append_step hd2

/-! ## Generator output shape -/

theorem genDoc_air (v w h l : Nat) (cp : List Byte) :
    genDoc v w h l [airBytes] cp =
      mtsmSig ++ enc16 v ++ enc16 w ++ enc16 h ++ enc16 l ++
        List.replicate h (127 : Byte) ++ enc16 1 ++ enc16 3 ++ airBytes ++ cp := by
  simp [genDoc, palBytes, airBytes, List.append_assoc]

theorem create_empty_eq {compress : List Byte → List Byte} {w h l v : Nat}
    {d : List Byte} (hs : create_empty_schematic compress w h l v = some d) :
    d = genDoc v w h l [airBytes] (compress (emptyBulk (w * h * l))) ∧
      (1 ≤ w ∧ w ≤ 65535) ∧ (1 ≤ h ∧ h ≤ 65535) ∧ (1 ≤ l ∧ l ≤ 65535) ∧ v < 65536 := by
  unfold create_empty_schematic at hs
  split_ifs at hs with h1 h2 h3
  refine ⟨?_, by omega, by omega, by omega, by omega⟩
  rw [genDoc_air]
  exact (Option.some.inj hs).symm

theorem create_from_template_eq {compress : List Byte → List Byte} {t : Template}
    {d : List Byte} (hs : create_from_template compress t = some d) :
    d = genDoc 4 t.dimensions.1 t.dimensions.2.1 t.dimensions.2.2 t.nodes
          (compress (if t.data = [] then
            emptyBulk (t.dimensions.1 * t.dimensions.2.1 * t.dimensions.2.2) else [])) ∧
      t.dimensions.1 ≤ 65535 ∧ t.dimensions.2.1 ≤ 65535 ∧ t.dimensions.2.2 ≤ 65535 ∧
      t.nodes.length ≤ 65535 ∧ ∀ nb ∈ t.nodes, nb.length ≤ 65535 := by
  simp only [create_from_template] at hs
  split_ifs at hs with h1 h2 h3 hdata <;>
  · have hnodes : ∀ nb ∈ t.nodes, nb.length ≤ 65535 := by
      intro nb hnb
      by_contra hc
      exact h3 (List.any_eq_true.mpr ⟨nb, hnb, by simp; omega⟩)
    refine ⟨?_, by omega, by omega, by omega, by omega, hnodes⟩
    rw [← Option.some.inj hs]
    simp [genDoc, emptyBulk, hdata]

/-! ## The all-air bulk payload -/

theorem emptyBulk_eq_replicate (n : Nat) : emptyBulk n = List.replicate (4 * n) (0 : Byte) := by
  have h4 : 2 * n + n + n = 4 * n := by omega
  simp [emptyBulk, ← h4]

theorem length_emptyBulk (n : Nat) : (emptyBulk n).length = 4 * n := by
  rw [emptyBulk_eq_replicate, List.length_replicate]

theorem bePairs_replicate_zero : ∀ n : Nat, bePairs (List.replicate (2 * n) (0 : Byte)) = List.replicate n 0 := by
  intro n
  induction n with
  | zero => rfl
  | succ m ih =>
    have h2 : 2 * (m + 1) = 2 * m + 1 + 1 := by omega
    rw [h2, List.replicate_succ, List.replicate_succ, bePairs, ih]
    rfl

theorem nodeIndices_emptyBulk (n : Nat) :
    nodeIndices (emptyBulk n) n = List.replicate n 0 := by
  rw [nodeIndices, emptyBulk_eq_replicate]
  have h4 : (4 : Nat) * n = 2 * n + 2 * n := by omega
  rw [h4, List.replicate_add, List.take_left' (List.length_replicate _ _)]
  exact bePairs_replicate_zero n

/-! ## Decomposing the validator -/

/-- Once the fatal minimum-size check has passed, `validate_file` is
exactly the per-check functions run in order: the violation list is their
concatenation (with the truncation check guarded on the accumulated list
being empty), and the metadata holds every successfully decoded field. -/
theorem validate_file_decompose (p : String) (b : List Byte) (h20 : ¬ b.length < 20) :
    validate_file (some ⟨p, b⟩) =
      (decide (quickChecks p b ++ checkTruncation b (quickChecks p b) = []),
       quickChecks p b ++ checkTruncation b (quickChecks p b),
       { version := decodedVersion b, dimensions := decodedDims b,
         volume := (decodedDims b).map (fun d => d.1 * d.2.1 * d.2.2),
         yprobs_length := metaYprobsLen b, node_count := decodedNodeCount b,
         compressed_data_size := some (compressedSize b) }) := by
  obtain ⟨hi, lo, hv⟩ := length_eq_two (l := readAt b 4 2) (by simp [readAt]; omega)
  obtain ⟨w1, w0, h1, h0, l1, l0, hd⟩ :=
    length_eq_six (l := readAt b 6 6) (by simp [readAt]; omega)
  simp only [validate_file, if_neg h20, quickChecks, checkExtension, checkSignature,
    checkVersion, decodedVersion, checkDimensions, decodedDims, checkYprobs, posAfterY,
    checkNodeCount, decodedNodeCount, compressedSize, checkCompressedSize,
    checkTruncation, metaYprobsLen, hv, hd]
  by_cases hy : (readAt b 12 (be16 h1 h0)).length = be16 h1 h0
  · have hnc2 : (readAt b (12 + be16 h1 h0) 2).length ≤ 2 := by simp [readAt]
    rcases hncs : readAt b (12 + be16 h1 h0) 2 with _ | ⟨a, _ | ⟨c, _ | ⟨e, t⟩⟩⟩
    · simp [hy, hncs]
    · simp [hy, hncs]
    · simp [hy, hncs]
    · rw [hncs] at hnc2
      simp at hnc2
  · have hnc2 : (readAt b (12 + (readAt b 12 (be16 h1 h0)).length) 2).length ≤ 2 := by
      simp [readAt]
    rcases hncs : readAt b (12 + (readAt b 12 (be16 h1 h0)).length) 2 with
      _ | ⟨a, _ | ⟨c, _ | ⟨e, t⟩⟩⟩
    · simp [hy, hncs]
    · simp [hy, hncs]
    · simp [hy, hncs]
    · rw [hncs] at hnc2
      simp at hnc2

/-! ## Claim C1 -/

/-- C1 (counterexample): a structurally perfect 21-byte document whose
only violation is the warning-level wrong-extension one is nevertheless
judged invalid, so a warning-level condition does make the verdict false,
contradicting the claim. -/
theorem validity_warning_counterexample :
    (validate_file (some ⟨"file.txt",
      [77, 84, 83, 77, 0, 4, 0, 1, 0, 1, 0, 1, 127, 0, 1, 0, 0, 0, 0, 0, 0]⟩)).1 = false ∧
    (validate_file (some ⟨"file.txt",
      [77, 84, 83, 77, 0, 4, 0, 1, 0, 1, 0, 1, 127, 0, 1, 0, 0, 0, 0, 0, 0]⟩)).2.1 =
      [Violation.badExtension] := by
  decide

/-- C1 (amended): `validate_file` returns validity true iff its violation
list is empty — violations of every severity, warnings included, falsify
the verdict. -/
theorem validity_iff_no_violations :
    ∀ file : Option MTSFile,
      (validate_file file).1 = true ↔ (validate_file file).2.1 = [] := by
  intro file
  rcases file with _ | f
  · simp [validate_file]
  · by_cases h20 : f.content.length < 20
    · simp [validate_file, h20]
    · rw [validate_file_decompose f.path f.content h20]
      simp

/-! ## Claim C6 -/

/-- C6 (counterexample): a 12-byte file whose height field is 65535 makes
`parse_nodelist` seek far past end-of-file, so `get_metadata` reports the
negative compressed size `12 - 65547 = -65535`; nothing clamps it to zero. -/
theorem compressed_size_negative_counterexample :
    (get_metadata [77, 84, 83, 77, 0, 4, 0, 1, 255, 255, 0, 1]).data_section.compressed_size =
      -65535 ∧
    (get_metadata [77, 84, 83, 77, 0, 4, 0, 1, 255, 255, 0, 1]).data_section.compressed_size
      < 0 := by
  decide

/-- C6 (amended): `compressed_size` is the plain integer difference
between the file size and the offset after the palette, and it is negative
exactly when that offset exceeds the file size; no clamping or anomaly
reporting occurs. -/
theorem compressed_size_difference :
    ∀ b : List Byte,
      (get_metadata b).data_section.compressed_size =
        (b.length : Int) - ((parse_nodelist b).2 : Int) ∧
      ((get_metadata b).data_section.compressed_size < 0 ↔
        b.length < (parse_nodelist b).2) := by
  intro b
  refine ⟨rfl, ?_⟩
  simp only [get_metadata]
  omega

/-! ## Claim C9 -/

theorem parse_header_version_short {b : List Byte} (h : b.length < 6) :
    (parse_header b).version = 0 := by
  have hlen : (readAt b 4 2).length < 2 := by
    simp [readAt]
    omega
  rcases hv : readAt b 4 2 with _ | ⟨a, _ | ⟨c, t⟩⟩
  · simp [parse_header, hv]
  · simp [parse_header, hv]
  · rw [hv] at hlen
    simp at hlen
    omega

theorem parse_header_dims_short {b : List Byte} (h : b.length < 12) :
    (parse_header b).width = 0 ∧ (parse_header b).height = 0 ∧
      (parse_header b).length = 0 ∧ (parse_header b).volume = 0 := by
  have hlen : (readAt b 6 6).length < 6 := by
    simp [readAt]
    omega
  rcases hv : readAt b 6 6 with _ | ⟨a, _ | ⟨c, _ | ⟨d, _ | ⟨e, _ | ⟨f, _ | ⟨g, t⟩⟩⟩⟩⟩⟩
  · simp [parse_header, hv]
  · simp [parse_header, hv]
  · simp [parse_header, hv]
  · simp [parse_header, hv]
  · simp [parse_header, hv]
  · simp [parse_header, hv]
  · rw [hv] at hlen
    simp at hlen
    omega

/-- C9: `parse_header` is total — it returns a `Header` for every byte
sequence (no exception path exists in the embedding), substituting
version 0 when fewer than 2 version bytes are available (file shorter
than 6 bytes) and zero dimensions and volume when fewer than 6 dimension
bytes are available (file shorter than 12 bytes). -/
theorem parse_header_total_defaults :
    ∀ b : List Byte,
      (b.length < 6 → (parse_header b).version = 0) ∧
      (b.length < 12 → (parse_header b).width = 0 ∧ (parse_header b).height = 0 ∧
        (parse_header b).length = 0 ∧ (parse_header b).volume = 0) :=
  fun b => ⟨fun h => parse_header_version_short h, fun h => parse_header_dims_short h⟩

/-- C9 (witness): the empty file decodes to version 0 and zero dimensions. -/
theorem parse_header_total_defaults_witness :
    (parse_header []).version = 0 ∧ (parse_header []).width = 0 ∧
      (parse_header []).height = 0 ∧ (parse_header []).length = 0 ∧
      (parse_header []).volume = 0 :=
  ⟨(parse_header_total_defaults []).1 (by decide),
    ((parse_header_total_defaults []).2 (by decide)).1,
    ((parse_header_total_defaults []).2 (by decide)).2.1,
    ((parse_header_total_defaults []).2 (by decide)).2.2.1,
    ((parse_header_total_defaults []).2 (by decide)).2.2.2⟩

/-! ## Claim C10 -/

theorem decodedDims_bounds {b : List Byte} {d : Nat × Nat × Nat}
    (h : decodedDims b = some d) :
    d.1 ≤ 65535 ∧ d.2.1 ≤ 65535 ∧ d.2.2 ≤ 65535 := by
  unfold decodedDims at h
  split at h
  · cases h
    exact ⟨be16_le _ _, be16_le _ _, be16_le _ _⟩
  · cases h

/-- C10: the "Dimensions too large" violation is unreachable: each
dimension is decoded from a 2-byte big-endian field, hence at most 65535,
so the `> 65535` branch never appends. -/
theorem dimensions_too_large_unreachable :
    ∀ file : Option MTSFile,
      Violation.dimensionsTooLarge ∉ (validate_file file).2.1 := by
  intro file
  rcases file with _ | f
  · simp [validate_file]
  · by_cases h20 : f.content.length < 20
    · simp [validate_file, h20]
    · rw [validate_file_decompose f.path f.content h20]
      simp only [quickChecks, List.append_assoc, List.mem_append]
      push_neg
      refine ⟨?_, ?_, ?_, ?_, ?_, ?_, ?_, ?_⟩
      · unfold checkExtension
        split <;> simp
      · unfold checkSignature
        split <;> simp
      · unfold checkVersion
        split
        · split <;> simp
        · simp
      · rcases hdd : decodedDims f.content with _ | d
        · simp [checkDimensions, hdd]
        · obtain ⟨bw, bh, bl⟩ := decodedDims_bounds hdd
          simp only [checkDimensions, hdd]
          split_ifs with hz ho
          · omega
          · simp
          · omega
          · simp
      · unfold checkYprobs
        split
        · split <;> simp
        · simp
      · unfold checkNodeCount
        split <;> simp
      · unfold checkCompressedSize
        split
        · split <;> simp
        · simp
      · unfold checkTruncation
        split
        · split <;> simp
        · simp

/-! ## Claim C4 -/

/-- C4: on any file of at least 12 bytes (written as 12 leading bytes plus
a rest), `parse_header` decodes the version from offsets 4–5 and the
width, height, length from offsets 6–7, 8–9, 10–11 as big-endian unsigned
16-bit integers; `signature_valid` is exactly the comparison of the first
4 bytes with `MTSM`, and a differing signature still leaves all decoded
fields in place with `signature_valid = false` instead of failing. -/
theorem parse_header_positional :
    ∀ (s0 s1 s2 s3 v1 v0 w1 w0 h1 h0 l1 l0 : Byte) (rest : List Byte),
      ((parse_header (s0 :: s1 :: s2 :: s3 :: v1 :: v0 :: w1 :: w0 :: h1 :: h0 ::
          l1 :: l0 :: rest)).version = be16 v1 v0 ∧
       (parse_header (s0 :: s1 :: s2 :: s3 :: v1 :: v0 :: w1 :: w0 :: h1 :: h0 ::
          l1 :: l0 :: rest)).width = be16 w1 w0 ∧
       (parse_header (s0 :: s1 :: s2 :: s3 :: v1 :: v0 :: w1 :: w0 :: h1 :: h0 ::
          l1 :: l0 :: rest)).height = be16 h1 h0 ∧
       (parse_header (s0 :: s1 :: s2 :: s3 :: v1 :: v0 :: w1 :: w0 :: h1 :: h0 ::
          l1 :: l0 :: rest)).length = be16 l1 l0 ∧
       (parse_header (s0 :: s1 :: s2 :: s3 :: v1 :: v0 :: w1 :: w0 :: h1 :: h0 ::
          l1 :: l0 :: rest)).signature_valid = decide ([s0, s1, s2, s3] = mtsmSig)) ∧
      ([s0, s1, s2, s3] ≠ mtsmSig →
       (parse_header (s0 :: s1 :: s2 :: s3 :: v1 :: v0 :: w1 :: w0 :: h1 :: h0 ::
          l1 :: l0 :: rest)).signature_valid = false) := by
  intro s0 s1 s2 s3 v1 v0 w1 w0 h1 h0 l1 l0 rest
  refine ⟨⟨rfl, rfl, rfl, rfl, rfl⟩, fun hne => ?_⟩
  exact decide_eq_false hne

/-- C4 (witness): the spec's `XXXX` scenario — signature `XXXX` (byte 88)
still yields decoded fields, with `signature_valid = false`. -/
theorem parse_header_positional_witness :
    ([88, 88, 88, 88] : List Byte) ≠ mtsmSig ∧
    (parse_header [88, 88, 88, 88, 0, 5, 0, 1, 0, 2, 0, 3]).signature_valid = false :=
  ⟨by decide, (parse_header_positional 88 88 88 88 0 5 0 1 0 2 0 3 []).2 (by decide)⟩

/-! ## Claim C7 -/

/-- C7 (counterexample): a 20-byte file with a wrong extension (warning
recorded) whose header claims height 200, so its size 20 is far below the
implied minimum 12 + 200 + 2 = 214; the claim says the final truncation
check still runs and appends its violation, but the code guards it on the
violation list being empty, so `fileTruncated` is absent. -/
theorem truncation_check_guard_counterexample :
    (validate_file (some ⟨"a.txt",
      [77, 84, 83, 77, 0, 4, 0, 1, 0, 200, 0, 1, 1, 1, 1, 1, 1, 1, 1, 1]⟩)).2.1 =
      [Violation.badExtension, Violation.incompleteYprobs, Violation.cannotReadNodeCount] ∧
    Violation.fileTruncated ∉ (validate_file (some ⟨"a.txt",
      [77, 84, 83, 77, 0, 4, 0, 1, 0, 200, 0, 1, 1, 1, 1, 1, 1, 1, 1, 1]⟩)).2.1 ∧
    (validate_file (some ⟨"a.txt",
      [77, 84, 83, 77, 0, 4, 0, 1, 0, 200, 0, 1, 1, 1, 1, 1, 1, 1, 1, 1]⟩)).2.2.dimensions =
      some (1, 200, 1) ∧
    ([77, 84, 83, 77, 0, 4, 0, 1, 0, 200, 0, 1, 1, 1, 1, 1, 1, 1, 1, 1] : List Byte).length <
      12 + 200 + 2 := by
  decide

/-- C7 (amended): the validator's checks run in the fixed source order.
A missing file or a size below 20 bytes is fatal and returns immediately
with the single structural violation and empty metadata.  Otherwise the
violation list is exactly the concatenation of the seven data checks in
order, followed by the truncation check — which, unlike the claim's
description, is guarded on the accumulated violation list (of any
severity) being empty; and the returned metadata holds every successfully
decoded field. -/
theorem validator_check_sequence :
    validate_file none = (false, [Violation.fileNotExist], {}) ∧
    (∀ (p : String) (b : List Byte), b.length < 20 →
      validate_file (some ⟨p, b⟩) = (false, [Violation.fileTooSmall], {})) ∧
    (∀ (p : String) (b : List Byte), ¬ b.length < 20 →
      (validate_file (some ⟨p, b⟩)).2.1 =
        quickChecks p b ++ checkTruncation b (quickChecks p b)) ∧
    (∀ (p : String) (b : List Byte), ¬ b.length < 20 →
      (validate_file (some ⟨p, b⟩)).2.2 =
        { version := decodedVersion b, dimensions := decodedDims b,
          volume := (decodedDims b).map (fun d => d.1 * d.2.1 * d.2.2),
          yprobs_length := metaYprobsLen b, node_count := decodedNodeCount b,
          compressed_data_size := some (compressedSize b) }) := by
  refine ⟨rfl, ?_, ?_, ?_⟩
  · intro p b h
    simp [validate_file, h]
  · intro p b h
    rw [validate_file_decompose p b h]
  · intro p b h
    rw [validate_file_decompose p b h]

/-- C7 (witness): the fatal small-file case on a 3-byte file, and the
decomposition on a concrete well-formed 21-byte document. -/
theorem validator_check_sequence_witness :
    validate_file (some ⟨"x", [0, 1, 2]⟩) = (false, [Violation.fileTooSmall], {}) ∧
    (validate_file (some ⟨"a.mts",
      [77, 84, 83, 77, 0, 4, 0, 1, 0, 1, 0, 1, 127, 0, 1, 0, 0, 0, 0, 0, 0]⟩)).2.1 =
      quickChecks "a.mts" [77, 84, 83, 77, 0, 4, 0, 1, 0, 1, 0, 1, 127, 0, 1, 0, 0, 0, 0, 0, 0] ++
        checkTruncation [77, 84, 83, 77, 0, 4, 0, 1, 0, 1, 0, 1, 127, 0, 1, 0, 0, 0, 0, 0, 0]
          (quickChecks "a.mts" [77, 84, 83, 77, 0, 4, 0, 1, 0, 1, 0, 1, 127, 0, 1, 0, 0, 0, 0, 0, 0]) :=
  ⟨validator_check_sequence.2.1 "x" [0, 1, 2] (by decide),
   validator_check_sequence.2.2.1 "a.mts"
     [77, 84, 83, 77, 0, 4, 0, 1, 0, 1, 0, 1, 127, 0, 1, 0, 0, 0, 0, 0, 0] (by decide)⟩

/-! ## Claim C8 -/

/-- C8: in quick mode `check_corruption` performs no decompression and is
healthy exactly when `validate_file` reports validity; in full mode it is
healthy exactly when the file is valid, the compressed section
decompresses, and the decompressed length equals `volume × 4`.
`validate_file` takes no decompressor at all, so the decompression
outcome cannot influence its verdict. -/
theorem check_corruption_modes :
    ∀ (dec : List Byte → Option (List Byte)) (file : Option MTSFile),
      ((check_corruption dec file true).1 = (validate_file file).1) ∧
      ((check_corruption dec file false).1 = true ↔
        (validate_file file).1 = true ∧
        ∃ f payload, file = some f ∧
          dec (extract_compressed_data f.content) = some payload ∧
          payload.length = (get_metadata f.content).header.volume * 4) := by
  intro dec file
  constructor
  · cases hb : (validate_file file).1
    · simp [check_corruption, hb]
    · simp [check_corruption, hb]
  · cases hb : (validate_file file).1
    · simp [check_corruption, hb]
    · rcases file with _ | f
      · simp [validate_file] at hb
      · rcases hdec : dec (extract_compressed_data f.content) with _ | payload
        · simp [check_corruption, hb, hdec]
        · by_cases hlen : payload.length = (get_metadata f.content).header.volume * 4
          · simp [check_corruption, hb, hdec, hlen]
          · simp [check_corruption, hb, hdec, hlen]

/-! ## Claims C2 and C3 -/

theorem pyDecodeIgnore_air : pyDecodeIgnore airBytes = "air" := by decide

/-- C2 (counterexample): `create_from_template` with non-empty voxel data
leaves the bulk payload empty (the population branch is `pass`), so with
the identity compression pair (`compress := id`, `decompress := some`,
which satisfies the round-trip law) the decompressed bulk section has
length 0, not `volume × 4 = 4`. -/
theorem template_bulk_size_counterexample :
    (create_from_template id
      { dimensions := (1, 1, 1), nodes := [[97, 105, 114]], data := [(0, 0, 0)] }).isSome =
      true ∧
    some (extract_compressed_data ((create_from_template id
      { dimensions := (1, 1, 1), nodes := [[97, 105, 114]], data := [(0, 0, 0)] }).getD [])) =
      some ([] : List Byte) ∧
    ([] : List Byte).length ≠ 1 * 1 * 1 * 4 := by
  decide

/-- C2 (amended): for any compressor/decompressor pair satisfying the
round-trip law, every document built by `create_empty_schematic` has a
bulk section decompressing to exactly `volume × 4` bytes, and every
document built by `create_from_template` decompresses to `volume × 4`
bytes when its voxel data is empty but to 0 bytes when voxel data was
supplied (the population placeholder writes nothing). -/
theorem generated_bulk_size :
    ∀ (compress : List Byte → List Byte) (decompress : List Byte → Option (List Byte)),
      (∀ x, decompress (compress x) = some x) →
      (∀ (w h l v : Nat) (doc : List Byte),
        create_empty_schematic compress w h l v = some doc →
        ∃ payload, decompress (extract_compressed_data doc) = some payload ∧
          payload.length = w * h * l * 4) ∧
      (∀ (t : Template) (doc : List Byte),
        create_from_template compress t = some doc →
        ∃ payload, decompress (extract_compressed_data doc) = some payload ∧
          payload.length = (if t.data = [] then
            t.dimensions.1 * t.dimensions.2.1 * t.dimensions.2.2 * 4 else 0)) := by
  intro compress decompress hrt
  constructor
  · intro w h l v doc hs
    obtain ⟨hdoc, hw, hh, hl, hv⟩ := create_empty_eq hs
    subst hdoc
    rw [extract_genDoc (by omega) (by omega) (by omega) (by omega) _ (by decide)
      (by intro nb hnb; simp at hnb; subst hnb; decide)]
    refine ⟨emptyBulk (w * h * l), hrt _, ?_⟩
    rw [length_emptyBulk]
    exact Nat.mul_comm 4 _
  · intro t doc hs
    obtain ⟨hdoc, hw, hh, hl, hcount, hent⟩ := create_from_template_eq hs
    subst hdoc
    rw [extract_genDoc (by decide) (by omega) (by omega) (by omega) _ (by omega)
      (fun nb hnb => by have := hent nb hnb; omega)]
    by_cases hdata : t.data = []
    · simp only [hdata, if_pos rfl]
      refine ⟨emptyBulk _, hrt _, ?_⟩
      rw [length_emptyBulk]
      exact Nat.mul_comm 4 _
    · simp only [if_neg hdata]
      exact ⟨[], hrt [], rfl⟩

/-- C2 (witness): the identity pair on `create_empty_schematic 2 1 3` and
on the default template (empty voxel data). -/
theorem generated_bulk_size_witness :
    (∃ payload, some (extract_compressed_data
        ((create_empty_schematic id 2 1 3 4).getD [])) = some payload ∧
      payload.length = 2 * 1 * 3 * 4) ∧
    (∃ payload, some (extract_compressed_data
        ((create_from_template id {}).getD [])) = some payload ∧
      payload.length = (if ({} : Template).data = [] then 1 * 1 * 1 * 4 else 0)) :=
  ⟨(generated_bulk_size id some (fun _ => rfl)).1 2 1 3 4
      ((create_empty_schematic id 2 1 3 4).getD []) (by decide),
   (generated_bulk_size id some (fun _ => rfl)).2 {}
      ((create_from_template id {}).getD []) (by decide)⟩

/-- C3: for any round-tripping compression pair and any in-range
dimensions, `create_empty_schematic` succeeds and parsing its bytes
reproduces the dimensions (and volume), all-127 y-probabilities, the
single-entry palette `["air"]`, and an all-zero payload of `4 × volume`
bytes whose node-index plane is `volume` zeros. -/
theorem create_empty_roundtrip :
    ∀ (compress : List Byte → List Byte) (decompress : List Byte → Option (List Byte)),
      (∀ x, decompress (compress x) = some x) →
      ∀ w h l : Nat, 1 ≤ w → w ≤ 65535 → 1 ≤ h → h ≤ 65535 → 1 ≤ l → l ≤ 65535 →
      ∃ doc, create_empty_schematic compress w h l 4 = some doc ∧
        parse_header doc =
          { signature := mtsmSig, signature_valid := true, version := 4, width := w,
            height := h, length := l, volume := w * h * l, file_size := 12 } ∧
        parse_yprobs doc = (List.replicate h (127 : Byte), 12 + h) ∧
        parse_nodelist doc = (["air"], 12 + h + 7) ∧
        decompress (extract_compressed_data doc) =
          some (List.replicate (4 * (w * h * l)) (0 : Byte)) ∧
        nodeIndices (List.replicate (4 * (w * h * l)) (0 : Byte)) (w * h * l) =
          List.replicate (w * h * l) 0 := by
  intro compress decompress hrt w h l hw1 hw2 hh1 hh2 hl1 hl2
  have hent : ∀ nb ∈ [airBytes], nb.length < 65536 := by
    intro nb hnb
    simp at hnb
    subst hnb
    decide
  have hsome : create_empty_schematic compress w h l 4 =
      some (genDoc 4 w h l [airBytes] (compress (emptyBulk (w * h * l)))) := by
    unfold create_empty_schematic
    rw [if_neg (by omega), if_neg (by omega), if_neg (by omega), genDoc_air]
  refine ⟨_, hsome, ?_, ?_, ?_, ?_, ?_⟩
  · exact parse_header_genDoc (by omega) (by omega) (by omega) (by omega) _ _
  · exact parse_yprobs_genDoc (by omega) (by omega) (by omega) (by omega) _ _
  · rw [parse_nodelist_genDoc (by omega) (by omega) (by omega) (by omega) _ (by decide) hent]
    simp only [List.map_cons, List.map_nil, pyDecodeIgnore_air, Prod.mk.injEq]
    refine ⟨trivial, ?_⟩
    have h5 : (palBytes [airBytes]).length = 5 := rfl
    omega
  · rw [extract_genDoc (by omega) (by omega) (by omega) (by omega) _ (by decide) hent,
      hrt, emptyBulk_eq_replicate]
  · rw [← emptyBulk_eq_replicate]
    exact nodeIndices_emptyBulk _

/-- C3 (witness): the spec scenario `create_empty(4,2,4)` with the
identity compression pair — width 4, height 2, length 4, volume 32,
palette `["air"]`, payload 128 zero bytes, all 32 node indices 0. -/
theorem create_empty_roundtrip_witness :
    ∃ doc, create_empty_schematic id 4 2 4 4 = some doc ∧
      parse_header doc =
        { signature := mtsmSig, signature_valid := true, version := 4, width := 4,
          height := 2, length := 4, volume := 32, file_size := 12 } ∧
      parse_yprobs doc = (List.replicate 2 (127 : Byte), 14) ∧
      parse_nodelist doc = (["air"], 21) ∧
      some (extract_compressed_data doc) = some (List.replicate 128 (0 : Byte)) ∧
      nodeIndices (List.replicate 128 (0 : Byte)) 32 = List.replicate 32 0 :=
  create_empty_roundtrip id some (fun _ => rfl) 4 2 4 (by decide) (by decide)
    (by decide) (by decide) (by decide) (by decide)

/-! ## Claim C5 -/

/-- Entry loop with a declared count exceeding the entries present and
fewer than 2 bytes left after them: the length-field read comes up short,
the loop breaks, and the entries already parsed are returned. -/
theorem parseNodes_stop_lenfield (entries : List (List Byte)) :
    ∀ (d : List Byte) (pos : Nat) (tail : List Byte) (k : Nat),
      d.drop pos = palBytes entries ++ tail →
      (∀ nb ∈ entries, nb.length < 65536) → tail.length < 2 →
      parseNodes d (entries.length + k + 1) pos =
        (entries.map pyDecodeIgnore, pos + (palBytes entries).length + tail.length) := by
  induction entries with
  | nil =>
    intro d pos tail k hd _ htail
    have hdt : d.drop pos = tail := by simpa [palBytes] using hd
    have hr : readAt d pos 2 = tail := by
      rw [readAt_of_drop hdt]
      exact List.take_of_length_le (by omega)
    simp only [List.length_nil, Nat.zero_add]
    rw [parseNodes, hr]
    rcases tail with _ | ⟨a, _ | ⟨c, t⟩⟩
    · simp [palBytes]
    · simp [palBytes]
    · simp at htail
      omega
  | cons nb rest ih =>
    intro d pos tail k hd hlen htail
    have hnb : nb.length < 65536 := hlen nb (by simp)
    have hd1 : d.drop pos = enc16 nb.length ++ (nb ++ (palBytes rest ++ tail)) := by
      rw [hd, palBytes_cons]
      simp [List.append_assoc]
    have hr2 : readAt d pos 2 = [b8 (nb.length / 256), b8 nb.length] := by
      rw [readAt_of_drop hd1]
      rfl
    have hd2 : d.drop (pos + 2) = nb ++ (palBytes rest ++ tail) := by
      have h2 := drop_append_step hd1
      simpa [length_enc16] using h2
    have hname : readAt d (pos + 2) nb.length = nb := by
      rw [readAt_of_drop hd2, List.take_left]
    have hd3 : d.drop (pos + 2 + nb.length) = palBytes rest ++ tail := drop_append_step hd2
    have hrec := ih d (pos + 2 + nb.length) tail k hd3
      (fun x hx => hlen x (by simp [hx])) htail
    have hcnt : (nb :: rest).length + k + 1 = (rest.length + k + 1) + 1 := by
      simp [List.length_cons]
      omega
    rw [hcnt, parseNodes, hr2]
    simp only [be16_enc16 hnb, hname]
    simp [hrec, length_palBytes_cons, Prod.ext_iff]
    try omega

/-- Entry loop where, after the encoded entries, a length field promises
`m` bytes but fewer remain: the name read comes up short, the loop breaks
after consuming the leftovers, and the parsed entries are returned. -/
theorem parseNodes_stop_shortname (entries : List (List Byte)) :
    ∀ (d : List Byte) (pos : Nat) (short : List Byte) (m k : Nat),
      d.drop pos = palBytes entries ++ (enc16 m ++ short) →
      (∀ nb ∈ entries, nb.length < 65536) → m < 65536 → short.length < m →
      parseNodes d (entries.length + k + 1) pos =
        (entries.map pyDecodeIgnore,
         pos + (palBytes entries).length + 2 + short.length) := by
  induction entries with
  | nil =>
    intro d pos short m k hd _ hm hshort
    have hdt : d.drop pos = enc16 m ++ short := by simpa [palBytes] using hd
    have hr : readAt d pos 2 = [b8 (m / 256), b8 m] := by
      rw [readAt_of_drop hdt]
      rfl
    have hd2 : d.drop (pos + 2) = short := by
      have h2 := drop_append_step hdt
      simpa [length_enc16] using h2
    have hname : readAt d (pos + 2) m = short := by
      rw [readAt_of_drop hd2]
      exact List.take_of_length_le (by omega)
    simp only [List.length_nil, Nat.zero_add]
    rw [parseNodes, hr]
    simp only [be16_enc16 hm, hname]
    rw [if_neg (by omega)]
    simp [palBytes]
  | cons nb rest ih =>
    intro d pos short m k hd hlen hm hshort
    have hnb : nb.length < 65536 := hlen nb (by simp)
    have hd1 : d.drop pos = enc16 nb.length ++ (nb ++ (palBytes rest ++ (enc16 m ++ short))) := by
      rw [hd, palBytes_cons]
      simp [List.append_assoc]
    have hr2 : readAt d pos 2 = [b8 (nb.length / 256), b8 nb.length] := by
      rw [readAt_of_drop hd1]
      rfl
    have hd2 : d.drop (pos + 2) = nb ++ (palBytes rest ++ (enc16 m ++ short)) := by
      have h2 := drop_append_step hd1
      simpa [length_enc16] using h2
    have hname : readAt d (pos + 2) nb.length = nb := by
      rw [readAt_of_drop hd2, List.take_left]
    have hd3 : d.drop (pos + 2 + nb.length) = palBytes rest ++ (enc16 m ++ short) :=
      drop_append_step hd2
    have hrec := ih d (pos + 2 + nb.length) short m k hd3
      (fun x hx => hlen x (by simp [hx])) hm hshort
    have hcnt : (nb :: rest).length + k + 1 = (rest.length + k + 1) + 1 := by
      simp [List.length_cons]
      omega
    rw [hcnt, parseNodes, hr2]
    simp only [be16_enc16 hnb, hname]
    simp [hrec, length_palBytes_cons, Prod.ext_iff]
    try omega

/-- C5 (counterexample): a palette entry whose single name byte is the
invalid UTF-8 byte `0xFF` decodes under the code's `errors='ignore'` to
the empty string — the byte is dropped, not replaced by `U+FFFD` as the
claim states. -/
theorem palette_replace_counterexample :
    (parse_nodelist [77, 84, 83, 77, 0, 4, 0, 1, 0, 0, 0, 1, 0, 1, 0, 1, 255]).1 =
      [pyDecodeIgnore [255]] ∧
    pyDecodeIgnore [255] = "" ∧
    pyDecodeReplace [255] = String.mk [Char.ofNat 65533] ∧
    (parse_nodelist [77, 84, 83, 77, 0, 4, 0, 1, 0, 0, 0, 1, 0, 1, 0, 1, 255]).1 ≠
      [pyDecodeReplace [255]] := by
  decide

/-- C5 (amended): palette decoding reads a 2-byte big-endian node count
at offset `12 + height`, then per entry a 2-byte big-endian name length
followed by that many name bytes decoded as UTF-8 with invalid sequences
dropped (`errors='ignore'`), never fatally.  If the buffer ends inside a
length field or a name run, reading stops early and the entries parsed
before that point are returned. -/
theorem palette_decoding :
    (∀ (b : List Byte) (entries : List (List Byte)) (tail : List Byte),
      b.drop (12 + (parse_header b).height) =
        enc16 entries.length ++ (palBytes entries ++ tail) →
      entries.length < 65536 → (∀ nb ∈ entries, nb.length < 65536) →
      parse_nodelist b = (entries.map pyDecodeIgnore,
        12 + (parse_header b).height + 2 + (palBytes entries).length)) ∧
    (∀ (b : List Byte) (entries : List (List Byte)) (k : Nat) (tail : List Byte),
      b.drop (12 + (parse_header b).height) =
        enc16 (entries.length + k + 1) ++ (palBytes entries ++ tail) →
      entries.length + k + 1 < 65536 → (∀ nb ∈ entries, nb.length < 65536) →
      tail.length < 2 →
      parse_nodelist b = (entries.map pyDecodeIgnore,
        12 + (parse_header b).height + 2 + (palBytes entries).length + tail.length)) ∧
    (∀ (b : List Byte) (entries : List (List Byte)) (k m : Nat) (short : List Byte),
      b.drop (12 + (parse_header b).height) =
        enc16 (entries.length + k + 1) ++ (palBytes entries ++ (enc16 m ++ short)) →
      entries.length + k + 1 < 65536 → (∀ nb ∈ entries, nb.length < 65536) →
      m < 65536 → short.length < m →
      parse_nodelist b = (entries.map pyDecodeIgnore,
        12 + (parse_header b).height + 2 + (palBytes entries).length + 2 + short.length)) := by
  refine ⟨?_, ?_, ?_⟩
  · intro b entries tail hdrop hcount hent
    have hr : readAt b (12 + (parse_header b).height) 2 =
        [b8 (entries.length / 256), b8 entries.length] := by
      rw [readAt_of_drop hdrop]
      rfl
    have hd2 : b.drop (12 + (parse_header b).height + 2) = palBytes entries ++ tail := by
      have h2 := drop_append_step hdrop
      simpa [length_enc16] using h2
    simp only [parse_nodelist, hr]
    simp only [be16_enc16 hcount]
    exact parseNodes_encoded entries b _ tail hd2 hent
  · intro b entries k tail hdrop hcount hent htail
    have hr : readAt b (12 + (parse_header b).height) 2 =
        [b8 ((entries.length + k + 1) / 256), b8 (entries.length + k + 1)] := by
      rw [readAt_of_drop hdrop]
      rfl
    have hd2 : b.drop (12 + (parse_header b).height + 2) = palBytes entries ++ tail := by
      have h2 := drop_append_step hdrop
      simpa [length_enc16] using h2
    simp only [parse_nodelist, hr]
    simp only [be16_enc16 hcount]
    rw [parseNodes_stop_lenfield entries b _ tail k hd2 hent htail]
  · intro b entries k m short hdrop hcount hent hm hshort
    have hr : readAt b (12 + (parse_header b).height) 2 =
        [b8 ((entries.length + k + 1) / 256), b8 (entries.length + k + 1)] := by
      rw [readAt_of_drop hdrop]
      rfl
    have hd2 : b.drop (12 + (parse_header b).height + 2) =
        palBytes entries ++ (enc16 m ++ short) := by
      have h2 := drop_append_step hdrop
      simpa [length_enc16] using h2
    simp only [parse_nodelist, hr]
    simp only [be16_enc16 hcount]
    rw [parseNodes_stop_shortname entries b _ short m k hd2 hent hm hshort]

/-- C5 (witness): the three cases on concrete buffers — a complete
single-entry palette, a declared count of 2 with the buffer ending inside
the second length field, and a declared count of 2 with the second name
run truncated. -/
theorem palette_decoding_witness :
    parse_nodelist [77, 84, 83, 77, 0, 4, 0, 1, 0, 0, 0, 1, 0, 1, 0, 3, 97, 105, 114] =
      (["air"], 19) ∧
    parse_nodelist [77, 84, 83, 77, 0, 4, 0, 1, 0, 0, 0, 1, 0, 2, 0, 3, 97, 105, 114, 9] =
      (["air"], 20) ∧
    parse_nodelist [77, 84, 83, 77, 0, 4, 0, 1, 0, 0, 0, 1, 0, 2, 0, 3, 97, 105, 114, 0, 5, 1, 2] =
      (["air"], 23) := by
  have hent : ∀ nb ∈ [airBytes], nb.length < 65536 := by
    intro nb hnb
    simp at hnb
    subst hnb
    decide
  refine ⟨?_, ?_, ?_⟩
  · rw [palette_decoding.1 [77, 84, 83, 77, 0, 4, 0, 1, 0, 0, 0, 1, 0, 1, 0, 3, 97, 105, 114]
      [airBytes] [] (by decide) (by decide) hent]
    decide
  · rw [palette_decoding.2.1 [77, 84, 83, 77, 0, 4, 0, 1, 0, 0, 0, 1, 0, 2, 0, 3, 97, 105, 114, 9]
      [airBytes] 0 [9] (by decide) (by decide) hent (by decide)]
    decide
  · rw [palette_decoding.2.2
      [77, 84, 83, 77, 0, 4, 0, 1, 0, 0, 0, 1, 0, 2, 0, 3, 97, 105, 114, 0, 5, 1, 2]
      [airBytes] 0 5 [1, 2] (by decide) (by decide) hent (by decide) (by decide)]
    decide

end MTS
